import Mathlib

/-!
Verification development for the devtools capture/relay core
(src/chrome-extension/devtools.js).

The JavaScript source is shallowly embedded: JSON-like runtime values become
the inductive `Json`; each function of the source is translated into a Lean
definition of the same name; browser effects (the WebSocket handle, timers,
`chrome.runtime.sendMessage` notifications) become explicit state and result
values.  JavaScript string lengths are modelled as character counts, and
JavaScript numbers as exact values (`Int` for payload numbers, `Real` for the
entropy computation).
-/

/-- JSON-like structured data: the values `truncateStringsInData`,
`JSON.stringify` and the filters operate on. -/
inductive Json where
  | null
  | bool (b : Bool)
  | num (n : Int)
  | str (s : String)
  | arr (items : List Json)
  | obj (fields : List (String × Json))

/-- True exactly on `Json.str` values: the model of `typeof v === "string"`. -/
def Json.isStr : Json → Bool
  | .str _ => true
  | _ => false

/-- Four-bit hex digit, lower case, as produced by JS `\uXXXX` escapes. -/
def hexDigit (n : Nat) : Char :=
  if n < 10 then Char.ofNat (48 + n) else Char.ofNat (87 + n)

/-- JSON escape of one character, as `JSON.stringify` emits it:
quote and backslash get a backslash, the named control characters get their
short escapes, other control characters get a `\u00XX` escape. -/
def jsonEscapeChar (c : Char) : String :=
  if c = Char.ofNat 34 then "\\\""
  else if c = Char.ofNat 92 then "\\\\"
  else if c = Char.ofNat 8 then "\\b"
  else if c = Char.ofNat 9 then "\\t"
  else if c = Char.ofNat 10 then "\\n"
  else if c = Char.ofNat 12 then "\\f"
  else if c = Char.ofNat 13 then "\\r"
  else if c.toNat < 32 then
    "\\u00" ++ String.mk [hexDigit (c.toNat / 16), hexDigit (c.toNat % 16)]
  else String.singleton c

/-- A JSON string literal: quotes around the escaped characters. -/
def jsonQuote (s : String) : String :=
  "\"" ++ String.join (s.data.map jsonEscapeChar) ++ "\""

mutual

/-- `JSON.stringify` on the embedded values. -/
def Json.stringify : Json → String
  | .null => "null"
  | .bool true => "true"
  | .bool false => "false"
  | .num n => toString n
  | .str s => jsonQuote s
  | .arr items => "[" ++ Json.stringifyList items ++ "]"
  | .obj fields => "\x7b" ++ Json.stringifyFields fields ++ "\x7d"

/-- Comma-separated serializations of an array's items. -/
def Json.stringifyList : List Json → String
  | [] => ""
  | [j] => Json.stringify j
  | j :: rest => Json.stringify j ++ "," ++ Json.stringifyList rest

/-- Comma-separated `"key":value` serializations of an object's fields. -/
def Json.stringifyFields : List (String × Json) → String
  | [] => ""
  | [kv] => jsonQuote kv.1 ++ ":" ++ Json.stringify kv.2
  | kv :: rest =>
      jsonQuote kv.1 ++ ":" ++ Json.stringify kv.2 ++ "," ++ Json.stringifyFields rest

end

/-- `calculateObjectSize` (devtools.js:347): `JSON.stringify(obj).length`. -/
def calculateObjectSize (obj : Json) : Nat :=
  (Json.stringify obj).length

/-- The string branch of `truncateStringsInData` (devtools.js:304-312):
strings longer than `maxLength` are cut and get the fixed marker appended. -/
def truncateString (s : String) (maxLength : Nat) : String :=
  if maxLength < s.length then s.take maxLength ++ "... (truncated)" else s

mutual

/-- `truncateStringsInData` (devtools.js:295-344).  The `path` argument of the
source only feeds `console` logging and is dropped.  The per-key `try/catch`
of the object branch cannot fire in this pure model (no sub-call throws), so
the `"[ERROR_PROCESSING]"` substitution does not appear. -/
def truncateStringsInData (data : Json) (maxLength : Nat) (depth : Nat) : Json :=
  if 100 < depth then Json.str "[MAX_DEPTH_EXCEEDED]"
  else
    match data with
    | .str s => Json.str (truncateString s maxLength)
    | .arr items => Json.arr (truncateJsonList items maxLength (depth + 1))
    | .obj fields => Json.obj (truncateJsonFields fields maxLength (depth + 1))
    | other => other

/-- The `data.map(item => truncateStringsInData(item, maxLength, depth + 1, _))`
of the array branch, as explicit recursion over the list. -/
def truncateJsonList (items : List Json) (maxLength : Nat) (depth : Nat) : List Json :=
  match items with
  | [] => []
  | item :: rest =>
      truncateStringsInData item maxLength depth :: truncateJsonList rest maxLength depth

/-- The `Object.entries` loop of the object branch: each value is truncated
recursively, keys are kept. -/
def truncateJsonFields (fields : List (String × Json)) (maxLength : Nat) (depth : Nat) :
    List (String × Json) :=
  match fields with
  | [] => []
  | kv :: rest =>
      (kv.1, truncateStringsInData kv.2 maxLength depth) ::
        truncateJsonFields rest maxLength depth

end

/-- The accumulator loop of `processArrayWithSizeLimit` (devtools.js:352-378):
`currentSize` is the running total of serialized sizes of the items already
kept; an item whose size would push the total over `maxTotalSize` stops the
iteration (the `break` of the source). -/
def processArrayGo (processFunc : Json → Json) (maxTotalSize : Nat) :
    List Json → Nat → List Json
  | [], _ => []
  | item :: rest, currentSize =>
      let processedItem := processFunc item
      let itemSize := calculateObjectSize processedItem
      if maxTotalSize < currentSize + itemSize then []
      else processedItem :: processArrayGo processFunc maxTotalSize rest (currentSize + itemSize)

/-- `processArrayWithSizeLimit` (devtools.js:352-378). -/
def processArrayWithSizeLimit (array : List Json) (maxTotalSize : Nat)
    (processFunc : Json → Json) : List Json :=
  processArrayGo processFunc maxTotalSize array 0

/-- ASCII letter or digit: the `[A-Za-z0-9]` character class. -/
def isAlphaNum (c : Char) : Bool := c.isAlpha || c.isDigit

/-- The `[A-Za-z0-9_-]` character class. -/
def inKeyClass (c : Char) : Bool := isAlphaNum c || c == '_' || c == '-'

/-- The `[A-Za-z0-9._-]` character class. -/
def inDotKeyClass (c : Char) : Bool := isAlphaNum c || c == '.' || c == '_' || c == '-'

/-- The `[0-9a-f]` class under the `i` flag: a hex digit in either case. -/
def isHexDigitCI (c : Char) : Bool :=
  c.isDigit || (97 ≤ c.toNat && c.toNat ≤ 102) || (65 ≤ c.toNat && c.toNat ≤ 70)

/-- Split a character list at every separator character, keeping empty pieces,
so that the pieces interleaved with single separators rebuild the input. -/
def splitOnSep (p : Char → Bool) : List Char → List (List Char)
  | [] => [[]]
  | c :: rest =>
      match splitOnSep p rest with
      | [] => [[]]
      | h :: t => if p c then [] :: h :: t else (c :: h) :: t

/-- Substring containment: some suffix of `s` starts with `sub`.  This is the
semantics of an unanchored JS regex of plain characters. -/
def strContainsList (s sub : List Char) : Bool :=
  (List.range (s.length + 1)).any (fun i => sub.isPrefixOf (s.drop i))

/-- The three strings generated by an `a[-_]?b` regex body. -/
def sepVariants (a b : String) : List String := [a ++ b, a ++ "-" ++ b, a ++ "_" ++ b]

/-- `isSensitiveKey` (devtools.js:158-160): the key matches some pattern of
`SENSITIVE_KEY_PATTERNS` (devtools.js:25-75).  Every pattern is an unanchored
case-insensitive literal, except the five `[-_]?` ones which expand to their
three variants; case-insensitivity is modelled by lowercasing the key
(the patterns are already lower case ASCII). -/
def isSensitiveKey (key : String) : Bool :=
  let k := key.data.map Char.toLower
  let has := fun (pat : String) => strContainsList k pat.data
  -- authentication related
  has "auth" || has "token" || has "jwt" || has "session" ||
  (sepVariants "api" "key").any has ||
  has "secret" || has "password" || has "pwd" || has "pass" ||
  has "credential" || has "oauth" ||
  (sepVariants "refresh" "token").any has ||
  (sepVariants "access" "token").any has ||
  (sepVariants "private" "key").any has ||
  -- personal information
  has "ssn" || (sepVariants "social" "security").any has ||
  has "dob" || has "birth" || has "phone" || has "address" ||
  has "zip" || has "postal" || has "license" ||
  (sepVariants "credit" "card").any has ||
  (sepVariants "card" "number").any has ||
  has "cvv" || has "ccv" ||
  -- financial
  has "bank" || has "account" || has "payment" ||
  has "tax" || has "salary" || has "income" ||
  -- health related
  has "medical" || has "insurance" || has "diagnos" ||
  -- other common sensitive data keys
  has "private" || has "confidential" || has "secure" || has "key"

/-- JWT pattern `^ey[A-Za-z0-9_-]+\.[A-Za-z0-9_-]+\.[A-Za-z0-9_-]+$`.
The segment class excludes the dot, so splitting at every dot is the unique
candidate decomposition. -/
def matchJwt (s : String) : Bool :=
  match splitOnSep (fun c => c == '.') s.data with
  | [a, b, c] =>
      (match a with
       | 'e' :: 'y' :: rest => 0 < rest.length && rest.all inKeyClass
       | _ => false) &&
      0 < b.length && b.all inKeyClass && 0 < c.length && c.all inKeyClass
  | _ => false

/-- Generic api key `^[A-Za-z0-9_-]{16,128}$`. -/
def matchGenericApiKey (s : String) : Bool :=
  16 ≤ s.length && s.length ≤ 128 && s.data.all inKeyClass

/-- AWS access key `^AKIA[0-9A-Z]{16}$`. -/
def matchAwsAccessKey (s : String) : Bool :=
  match s.data with
  | 'A' :: 'K' :: 'I' :: 'A' :: rest =>
      rest.length == 16 && rest.all (fun c => c.isDigit || c.isUpper)
  | _ => false

/-- AWS secret key `^[A-Za-z0-9/+=]{40}$`. -/
def matchAwsSecretKey (s : String) : Bool :=
  s.length == 40 && s.data.all (fun c => isAlphaNum c || c == '/' || c == '+' || c == '=')

/-- Popular api keys `^sk-[A-Za-z0-9]{32,}$`. -/
def matchSkApiKey (s : String) : Bool :=
  match s.data with
  | 's' :: 'k' :: '-' :: rest => 32 ≤ rest.length && rest.all isAlphaNum
  | _ => false

/-- Stripe api key `^(sk|pk)_(test|live)_[A-Za-z0-9]{24,}$`. -/
def matchStripeKey (s : String) : Bool :=
  match s.data with
  | a :: b :: '_' :: c :: d :: e :: f :: '_' :: rest =>
      (a == 's' || a == 'p') && b == 'k' &&
      ((c == 't' && d == 'e' && e == 's' && f == 't') ||
       (c == 'l' && d == 'i' && e == 'v' && f == 'e')) &&
      24 ≤ rest.length && rest.all isAlphaNum
  | _ => false

/-- Google api key `^AIza[0-9A-Za-z-_]{35}$`. -/
def matchGoogleApiKey (s : String) : Bool :=
  match s.data with
  | 'A' :: 'I' :: 'z' :: 'a' :: rest => rest.length == 35 && rest.all inKeyClass
  | _ => false

/-- GitHub token `^gh[pousr]_[A-Za-z0-9_]{36,255}$`. -/
def matchGithubToken (s : String) : Bool :=
  match s.data with
  | 'g' :: 'h' :: c :: '_' :: rest =>
      (c == 'p' || c == 'o' || c == 'u' || c == 's' || c == 'r') &&
      36 ≤ rest.length && rest.length ≤ 255 &&
      rest.all (fun x => isAlphaNum x || x == '_')
  | _ => false

/-- General api key pattern `^[A-Za-z0-9._-]{32,}$`. -/
def matchGeneralKey32 (s : String) : Bool :=
  32 ≤ s.length && s.data.all inDotKeyClass

/-- Hyphen/underscore-segmented key
`^[A-Za-z0-9]{8,}[-_][A-Za-z0-9]{4,}[-_][A-Za-z0-9]{4,}[-_][A-Za-z0-9]{4,}[-_][A-Za-z0-9]{12,}$`.
The separators cannot occur inside the alphanumeric runs, so splitting at
every separator is the unique candidate decomposition. -/
def matchDashedKey (s : String) : Bool :=
  match splitOnSep (fun c => c == '-' || c == '_') s.data with
  | [a, b, c, d, e] =>
      8 ≤ a.length && 4 ≤ b.length && 4 ≤ c.length && 4 ≤ d.length && 12 ≤ e.length &&
      a.all isAlphaNum && b.all isAlphaNum && c.all isAlphaNum &&
      d.all isAlphaNum && e.all isAlphaNum
  | _ => false

/-- UUID shape `^[0-9a-f]{8}-[0-9a-f]{4}-[0-9a-f]{4}-[0-9a-f]{4}-[0-9a-f]{12}$`
with the `i` flag. -/
def matchUuid (s : String) : Bool :=
  match splitOnSep (fun c => c == '-') s.data with
  | [a, b, c, d, e] =>
      a.length == 8 && b.length == 4 && c.length == 4 && d.length == 4 && e.length == 12 &&
      a.all isHexDigitCI && b.all isHexDigitCI && c.all isHexDigitCI &&
      d.all isHexDigitCI && e.all isHexDigitCI
  | _ => false

/-- OAuth bearer token `^bearer [A-Za-z0-9._-]+$` with the `i` flag:
case-insensitivity is modelled by lowercasing (which leaves membership in the
already case-closed tail class unchanged). -/
def matchBearerToken (s : String) : Bool :=
  match s.data.map Char.toLower with
  | 'b' :: 'e' :: 'a' :: 'r' :: 'e' :: 'r' :: ' ' :: rest =>
      0 < rest.length && rest.all inDotKeyClass
  | _ => false

/-- Payment card shape
`^(?:4[0-9]{12}(?:[0-9]{3})?|5[1-5][0-9]{14}|3[47][0-9]{13}|6(?:011|5[0-9]{2})[0-9]{12})$`. -/
def matchCardNumber (s : String) : Bool :=
  (match s.data with
   | '4' :: rest => (rest.length == 12 || rest.length == 15) && rest.all Char.isDigit
   | _ => false) ||
  (match s.data with
   | '5' :: c :: rest =>
       (49 ≤ c.toNat && c.toNat ≤ 53) && rest.length == 14 && rest.all Char.isDigit
   | _ => false) ||
  (match s.data with
   | '3' :: c :: rest => (c == '4' || c == '7') && rest.length == 13 && rest.all Char.isDigit
   | _ => false) ||
  (match s.data with
   | '6' :: a :: b :: c :: rest =>
       ((a == '0' && b == '1' && c == '1') || (a == '5' && b.isDigit && c.isDigit)) &&
       rest.length == 12 && rest.all Char.isDigit
   | _ => false)

/-- US social security number shape `^\d{3}-\d{2}-\d{4}$`. -/
def matchSsn (s : String) : Bool :=
  match splitOnSep (fun c => c == '-') s.data with
  | [a, b, c] =>
      a.length == 3 && b.length == 2 && c.length == 4 &&
      a.all Char.isDigit && b.all Char.isDigit && c.all Char.isDigit
  | _ => false

/-- The `[a-zA-Z0-9._%+-]` class of the email local part. -/
def inEmailLocalClass (c : Char) : Bool :=
  isAlphaNum c || c == '.' || c == '_' || c == '%' || c == '+' || c == '-'

/-- The `[a-zA-Z0-9.-]` class of the email domain part. -/
def inEmailDomainClass (c : Char) : Bool := isAlphaNum c || c == '.' || c == '-'

/-- `[a-zA-Z0-9.-]+\.[a-zA-Z]{2,}` as language membership: some dot splits the
list into a nonempty domain prefix and an alphabetic tail of length at least
two. -/
def matchEmailDomain (l : List Char) : Bool :=
  (List.range l.length).any (fun i =>
    l.get? i == some '.' && 0 < i && (l.take i).all inEmailDomainClass &&
    2 ≤ (l.drop (i + 1)).length && (l.drop (i + 1)).all Char.isAlpha)

/-- Email shape `^[a-zA-Z0-9._%+-]+@[a-zA-Z0-9.-]+\.[a-zA-Z]{2,}$`.  No class
contains `@`, so the split at every `@` is the unique candidate decomposition. -/
def matchEmail (s : String) : Bool :=
  match splitOnSep (fun c => c == '@') s.data with
  | [loc, dom] => 0 < loc.length && loc.all inEmailLocalClass && matchEmailDomain dom
  | _ => false

/-- `SENSITIVE_VALUE_PATTERNS.some(pattern => pattern.test(value))`
(devtools.js:78-107, 142): the disjunction of the fifteen value patterns in
source order. -/
def matchesSensitiveValuePattern (s : String) : Bool :=
  matchJwt s || matchGenericApiKey s || matchAwsAccessKey s || matchAwsSecretKey s ||
  matchSkApiKey s || matchStripeKey s || matchGoogleApiKey s || matchGithubToken s ||
  matchGeneralKey32 s || matchDashedKey s || matchUuid s || matchBearerToken s ||
  matchCardNumber s || matchSsn s || matchEmail s

/-- `calculateNormalizedEntropy` (devtools.js:110-132).  The frequency map in
first-occurrence order is `s.data.dedup` paired with `s.data.count`; entropy is
Shannon's formula over it, normalized by `log2` of the alphabet size.  The
source guards only `uniqueChars === 0`; for exactly one distinct character it
divides `0 / 0`, which is `NaN` in JS and `0` under Lean's division convention
-- both fail the strict `> 0.65` threshold test downstream, so the embedding
is observationally faithful there. -/
noncomputable def calculateNormalizedEntropy (s : String) : ℝ :=
  let len : ℝ := s.data.length
  let entropy : ℝ :=
    -((s.data.dedup.map (fun c =>
        let p : ℝ := (s.data.count c : ℝ) / len
        p * Real.logb 2 p)).sum)
  let uniqueChars := s.data.dedup.length
  if uniqueChars = 0 then 0
  else entropy / Real.logb 2 (uniqueChars : ℝ)

section
open Classical

/-- `isSensitiveValue` (devtools.js:134-156): non-strings are never sensitive;
strings shorter than 8 are never sensitive; otherwise a value-pattern match is
sensitive; otherwise strings longer than 16 are sensitive exactly when their
normalized entropy exceeds 0.65. -/
noncomputable def isSensitiveValue : Json → Bool
  | .str value =>
      if value.length < 8 then false
      else if matchesSensitiveValuePattern value then true
      else if 16 < value.length then
        if (0.65 : ℝ) < calculateNormalizedEntropy value then true else false
      else false
  | _ => false

end

/-- A cookie record as produced by the source's `document.cookie` eval snippet
and described by the spec's data model: a name/value pair of strings. -/
structure Cookie where
  name : String
  value : String

/-- `filterSensitiveCookies` (devtools.js:162-183).  The source reads the mode
from the ambient `settings.sensitiveDataMode`; here it is the explicit `mode`
argument.  The `Array.isArray` / `typeof cookie` guards of the source handle
malformed dynamic input that the typed `List Cookie` cannot represent. -/
noncomputable def filterSensitiveCookies (cookies : List Cookie) (mode : String) : List Cookie :=
  cookies.map (fun cookie =>
    if mode == "hide-all" ||
        (mode == "hide-sensitive" &&
          (isSensitiveKey cookie.name || isSensitiveValue (Json.str cookie.value))) then
      { cookie with value := "[SENSITIVE DATA REDACTED]" }
    else cookie)

/-- `filterSensitiveStorage` (devtools.js:185-203) over the spec's StorageMap
(string keys to string values, as `localStorage` yields).  The mode is the
explicit `mode` argument standing for `settings.sensitiveDataMode`; the
`typeof storage` guard handles malformed dynamic input that the typed map
cannot represent. -/
noncomputable def filterSensitiveStorage (storage : List (String × String)) (mode : String) :
    List (String × String) :=
  storage.map (fun kv =>
    if mode == "hide-all" ||
        (mode == "hide-sensitive" &&
          (isSensitiveKey kv.1 || isSensitiveValue (Json.str kv.2))) then
      (kv.1, "[SENSITIVE DATA REDACTED]")
    else kv)

/-- `processJsonString` (devtools.js:381-420).  The `JSON.parse` outcome is the
`parseResult` argument (`none` models the parse exception caught at line 391);
`laterFailure` models any exception thrown after a successful parse, caught by
the outer handler at line 416; `maxLogSize` stands for `settings.maxLogSize`.
On parse failure the source returns `truncateStringsInData(jsonString,
maxLength, 0, "root")`, whose string branch is `truncateString`. -/
def processJsonString (parseResult : Option Json) (laterFailure : Bool)
    (text : String) (maxLength maxLogSize : Nat) : String :=
  match parseResult with
  | none => truncateString text maxLength
  | some parsed =>
      if laterFailure then text.take maxLength ++ "... (truncated)"
      else
        match parsed with
        | Json.arr items =>
            Json.stringify (Json.arr (processArrayWithSizeLimit items maxLogSize
              (fun item => truncateStringsInData item maxLength 0)))
        | _ => Json.stringify (truncateStringsInData parsed maxLength 0)

/-- The `/.identity` exchange as the session layer sees it: an HTTP failure
status, a parsed JSON body with `name`/`version`/`signature` fields, or a
network/timeout/parse error (the `catch` of devtools.js:597). -/
inductive ServerReply where
  | httpError (status : Nat)
  | json (name version signature : String)
  | netFailure (err : String)

/-- `validateServerIdentity` (devtools.js:536-611): returns whether validation
succeeded together with the reason code of the `SERVER_VALIDATION_FAILED`
notification it emits on failure (`none` on success, where it emits
`SERVER_VALIDATION_SUCCESS` instead). -/
def validateServerIdentity : ServerReply → Bool × Option String
  | .httpError _ => (false, some "http_error")
  | .json _ _ signature =>
      if signature == "mcp-browser-connector-24x7" then (true, none)
      else (false, some "invalid_signature")
  | .netFailure _ => (false, some "connection_error")

/-- The connection-owning globals of devtools.js:903-911, as one record:
whether the `ws` handle, the reconnect timer and the heartbeat ticker are
live, plus the `reconnectAfterValidation` and `intentionalClosure` flags. -/
structure ConnState where
  ws : Bool
  wsReconnectTimeout : Bool
  heartbeatInterval : Bool
  reconnectAfterValidation : Bool
  intentionalClosure : Bool

/-- `setupWebSocket` (devtools.js:921-1265) as a state transition on the
connection globals, parametrized by the identity-validation outcome: it first
clears both timers and closes any existing socket (toggling and resetting
`intentionalClosure`); on validation failure it sets
`reconnectAfterValidation`, schedules the retry timer and opens nothing; on
success it clears the flag and opens the socket (`ws = new WebSocket(wsUrl)`).
The `catch` around the constructor (devtools.js:1260) is not modelled: it too
opens nothing. -/
def setupWebSocket (st : ConnState) (isValid : Bool) : ConnState :=
  let cleared : ConnState :=
    { st with wsReconnectTimeout := false, heartbeatInterval := false,
              ws := false, intentionalClosure := false }
  if isValid then
    { cleared with reconnectAfterValidation := false, ws := true }
  else
    { cleared with reconnectAfterValidation := true, wsReconnectTimeout := true }

/-- The `ws.onclose` handler (devtools.js:992-1032) as a state transition on a
close event with the given close code.  The second component counts the
`setTimeout(.., WS_RECONNECT_DELAY)` calls the handler performs: `1` exactly
when it schedules the reconnect.  The handler stops the heartbeat, returns
early on an intentional closure, and otherwise schedules the retry iff the
code is abnormal (not 1000/1001) or `reconnectAfterValidation` is pending. -/
def wsOnClose (st : ConnState) (code : Nat) : ConnState × Nat :=
  let stopped : ConnState := { st with heartbeatInterval := false }
  if stopped.intentionalClosure then (stopped, 0)
  else
    let isAbnormalClosure : Bool := !(code == 1000 || code == 1001)
    if isAbnormalClosure || stopped.reconnectAfterValidation then
      ({ stopped with wsReconnectTimeout := true }, 1)
    else (stopped, 0)

/-- The outcome of `chrome.devtools.inspectedWindow.eval` as the `get-cookies`
callback (devtools.js:1109) sees it: an exception, or a result that may be
absent (`null`/`undefined`, the `!result` test) or a cookie list. -/
inductive EvalOutcome where
  | exn (err : String)
  | ok (result : Option (List Cookie))

/-- One WebSocket frame sent by a command handler: its `type`, the echoed
`requestId`, and the `cookies` / `error` payload fields. -/
structure Frame where
  msgType : String
  requestId : String
  cookies : Option (List Cookie)
  error : Option String

/-- The `get-cookies` branch of `ws.onmessage` (devtools.js:1083-1149): the
list of frames the callback sends for one command, given the eval outcome and
the ambient `settings.sensitiveDataMode`.  On exception or missing result it
sends one `cookies-error` frame (the `error: isException || "Failed to get
cookies"` of the source); otherwise one `cookies-data` frame, filtering the
cookies unless the mode is `show-all`. -/
noncomputable def getCookiesOnEvalResult (requestId : String) (mode : String)
    (outcome : EvalOutcome) : List Frame :=
  match outcome with
  | .exn e => [Frame.mk "cookies-error" requestId none (some e)]
  | .ok none => [Frame.mk "cookies-error" requestId none (some "Failed to get cookies")]
  | .ok (some result) =>
      let cookies := if mode != "show-all" then filterSensitiveCookies result mode else result
      [Frame.mk "cookies-data" requestId (some cookies) none]

/-- A structure nested through `n` singleton arrays around `null`: the deep
input used to exercise the depth guard of `truncateStringsInData`. -/
def nest : Nat → Json
  | 0 => Json.null
  | k + 1 => Json.arr [nest k]

/-- `m` singleton-array wrappers around `j`: the shape of the output of
`truncateStringsInData` on `nest`. -/
def wrapA : Nat → Json → Json
  | 0, j => j
  | m + 1, j => Json.arr [wrapA m j]

-- ### Theorems

/-- Invariant of the `processArrayWithSizeLimit` loop: starting from a running
total `c ≤ B`, the loop keeps a prefix of the transformed items, its final
running total (`c` plus the kept sizes) stays within `B`, and if an item was
dropped, the first dropped item is the one whose size would have pushed the
total over `B`. -/
theorem processArrayGo_spec (f : Json → Json) (B : Nat) :
    ∀ (arr : List Json) (c : Nat), c ≤ B →
      ∃ k, k ≤ arr.length ∧
        processArrayGo f B arr c = (arr.map f).take k ∧
        c + ((processArrayGo f B arr c).map calculateObjectSize).sum ≤ B ∧
        (∀ j js, (arr.map f).drop k = j :: js →
          B < c + ((processArrayGo f B arr c).map calculateObjectSize).sum +
            calculateObjectSize j) := by
  intro arr
  induction arr with
  | nil =>
      intro c hc
      exact ⟨0, Nat.le_refl 0, rfl, by simpa [processArrayGo] using hc, by intro j js h; cases h⟩
  | cons item rest ih =>
      intro c hc
      by_cases hover : B < c + calculateObjectSize (f item)
      · refine ⟨0, Nat.zero_le _, ?_, ?_, ?_⟩
        · simp [processArrayGo, hover]
        · simpa [processArrayGo, hover] using hc
        · intro j js hdrop
          rw [List.drop_zero, List.map_cons] at hdrop
          cases hdrop
          simp only [processArrayGo, if_pos hover, List.map_nil, List.sum_nil]
          omega
      · push_neg at hover
        obtain ⟨k, hk, heq, hsum, htrig⟩ := ih (c + calculateObjectSize (f item)) hover
        have hcond : ¬ B < c + calculateObjectSize (f item) := Nat.not_lt.mpr hover
        refine ⟨k + 1, by simpa using Nat.succ_le_succ hk, ?_, ?_, ?_⟩
        · simp only [processArrayGo, if_neg hcond, List.map_cons, List.take_succ_cons]
          rw [heq]
        · simp only [processArrayGo, if_neg hcond, List.map_cons, List.sum_cons]
          omega
        · intro j js hdrop
          rw [List.map_cons, List.drop_succ_cons] at hdrop
          have := htrig j js hdrop
          simp only [processArrayGo, if_neg hcond, List.map_cons, List.sum_cons]
          omega

/-- C1: `processArrayWithSizeLimit` transforms items in iteration order and
keeps exactly a prefix of them (the dropped items are the corresponding
suffix); the running total of serialized sizes of the kept items — the measure
the claim's "serialized size of the result" tracks — never exceeds the budget
`B` (a fortiori it stays within `B` plus the size of any item), and when a
suffix was dropped, its first item is precisely the one whose size would have
pushed the running total over `B`. -/
theorem processArrayWithSizeLimit_bounded (array : List Json) (B : Nat) (f : Json → Json) :
    ∃ k, k ≤ array.length ∧
      processArrayWithSizeLimit array B f = (array.map f).take k ∧
      ((processArrayWithSizeLimit array B f).map calculateObjectSize).sum ≤ B ∧
      (∀ j js, (array.map f).drop k = j :: js →
        B < ((processArrayWithSizeLimit array B f).map calculateObjectSize).sum +
          calculateObjectSize j) := by
  obtain ⟨k, hk, heq, hsum, htrig⟩ := processArrayGo_spec f B array 0 (Nat.zero_le B)
  exact ⟨k, by simpa using hk, heq, by simpa using hsum,
    fun j js h => by have := htrig j js h; simpa using this⟩

/-- Witness for C1 at a concrete run: with budget 4 and the identity transform,
only the first of two `null` items (each of serialized size 4) is kept. -/
theorem processArrayWithSizeLimit_bounded_witness :
    processArrayWithSizeLimit [Json.null, Json.null] 4 (fun j => j) = [Json.null] := by
  obtain ⟨k, hk, heq, hsum, htrig⟩ :=
    processArrayWithSizeLimit_bounded [Json.null, Json.null] 4 (fun j => j)
  have hsz : calculateObjectSize Json.null = 4 := rfl
  have hk2 : k ≤ 2 := by simpa using hk
  clear hk
  interval_cases k
  · exfalso
    have h2 := htrig Json.null [Json.null] rfl
    rw [heq] at h2
    simp [hsz] at h2
  · rw [heq]; rfl
  · exfalso
    rw [heq] at hsum
    simp [hsz] at hsum

/-- On the `n`-fold nested singleton array, `truncateStringsInData` from depth
`d` replaces the subtree reached at depth 101 with the marker, leaving the
`101 - d` array layers above it intact. -/
theorem trunc_nest :
    ∀ (k d L : Nat), 101 ≤ d + k →
      truncateStringsInData (nest k) L d = wrapA (101 - d) (Json.str "[MAX_DEPTH_EXCEEDED]") := by
  intro k
  induction k with
  | zero =>
      intro d L h
      have hd : 100 < d := by omega
      have hz : 101 - d = 0 := by omega
      simp [truncateStringsInData, hd, hz, wrapA]
  | succ k ih =>
      intro d L h
      by_cases hd : 100 < d
      · have hz : 101 - d = 0 := by omega
        simp [truncateStringsInData, hd, hz, wrapA]
      · have hrec := ih (d + 1) L (by omega)
        have hstep : 101 - d = (101 - (d + 1)) + 1 := by omega
        simp only [nest, truncateStringsInData, if_neg hd, truncateJsonList, hrec, hstep, wrapA]

/-- C2: `truncateStringsInData` is a total function (it is defined by
structural recursion, so it terminates on every input), any call at depth
beyond 100 returns the depth-exceeded marker instead of recursing, and a
structure nested deeper than 100 levels comes back with the marker exactly at
the cutoff: 101 array layers survive and the subtree below them is replaced. -/
theorem truncateStringsInData_depth_guard :
    (∀ (data : Json) (L d : Nat), 100 < d →
        truncateStringsInData data L d = Json.str "[MAX_DEPTH_EXCEEDED]") ∧
    (∀ (n L : Nat), 101 ≤ n →
        truncateStringsInData (nest n) L 0 = wrapA 101 (Json.str "[MAX_DEPTH_EXCEEDED]")) := by
  constructor
  · intro data L d hd
    unfold truncateStringsInData
    rw [if_pos hd]
  · intro n L hn
    simpa using trunc_nest n 0 L (by omega)

/-- Witness for C2: a call at depth 101 returns the marker, and the 101-fold
nested structure is truncated to 101 array layers around the marker. -/
theorem truncateStringsInData_depth_guard_witness :
    truncateStringsInData Json.null 0 101 = Json.str "[MAX_DEPTH_EXCEEDED]" ∧
    truncateStringsInData (nest 101) 0 0 = wrapA 101 (Json.str "[MAX_DEPTH_EXCEEDED]") :=
  ⟨truncateStringsInData_depth_guard.1 Json.null 0 101 (by omega),
   truncateStringsInData_depth_guard.2 101 0 (by omega)⟩

/-- Deduplicating a nonempty constant list leaves the single character. -/
theorem dedup_replicate : ∀ (n : Nat), n ≠ 0 → ∀ (c : Char), (List.replicate n c).dedup = [c]
  | 0, h, _ => absurd rfl h
  | 1, _, _ => by simp
  | (k + 2), _, c => by
      rw [List.replicate_succ, List.dedup_cons_of_mem (by simp [List.mem_replicate])]
      exact dedup_replicate (k + 1) (Nat.succ_ne_zero k) c

/-- A nonempty string with one distinct character has `calculateNormalizedEntropy`
equal to 0: its single frequency is `len/len = 1` with `1·log2 1 = 0`, and the
normalizer `log2 1 = 0` makes the final division `0 / 0`, the junk value of the
embedding (`NaN` in JS); both fail the strict threshold test. -/
theorem entropy_single_char (s : String) (c : Char)
    (hs : s.data = List.replicate s.data.length c) (hne : s.data.length ≠ 0) :
    calculateNormalizedEntropy s = 0 := by
  have hn : ((s.data.length : ℝ)) ≠ 0 := Nat.cast_ne_zero.mpr hne
  have hlen : (List.replicate s.data.length c).length = s.data.length := by simp
  unfold calculateNormalizedEntropy
  rw [hs, hlen, dedup_replicate s.data.length hne c]
  simp [List.count_replicate_self, div_self hn, Real.logb_one]

/-- C3 counterexample: a string of twenty repeated `a` characters has one
distinct character, yet `isSensitiveValue` classifies it sensitive — it
matches the generic api-key format `^[A-Za-z0-9_-]{16,128}$` before the
entropy stage is ever consulted. -/
theorem isSensitiveValue_single_char_counterexample :
    "aaaaaaaaaaaaaaaaaaaa".data = List.replicate 20 'a' ∧
    isSensitiveValue (Json.str "aaaaaaaaaaaaaaaaaaaa") = true := by
  refine ⟨by decide, ?_⟩
  simp only [isSensitiveValue]
  rw [if_neg (by decide), if_pos (by decide)]

/-- C3 (amended): a string with only one distinct character is classified
sensitive exactly when it matches a value format pattern; if no pattern
matches, `isSensitiveValue` returns false — in particular the entropy stage
never fires for such strings (their normalized entropy is the undefined `0/0`,
which fails the `> 0.65` test), so no division-by-zero misclassification
occurs.  The unqualified claim is refuted by the counterexample: a repeated
alphanumeric character of length 16..128 matches the generic api-key format. -/
theorem isSensitiveValue_single_char (s : String) (c : Char)
    (hall : s.data = List.replicate s.data.length c)
    (hpat : matchesSensitiveValuePattern s = false) :
    isSensitiveValue (Json.str s) = false := by
  by_cases h8 : s.length < 8
  · simp [isSensitiveValue, h8]
  · by_cases h16 : 16 < s.length
    · have hlen : s.length = s.data.length := rfl
      have hne : s.data.length ≠ 0 := by omega
      have hent := entropy_single_char s c hall hne
      simp [isSensitiveValue, h8, hpat, h16, hent]
      norm_num
    · simp [isSensitiveValue, h8, hpat, h16]

/-- Witness for C3 (amended) at seventeen repeated asterisks, long enough to
reach the entropy stage and matching no format pattern. -/
theorem isSensitiveValue_single_char_witness :
    "*****************".data = List.replicate "*****************".data.length '*' ∧
    matchesSensitiveValuePattern "*****************" = false ∧
    isSensitiveValue (Json.str "*****************") = false :=
  ⟨by decide, by decide,
   isSensitiveValue_single_char "*****************" '*' (by decide) (by decide)⟩

/-- C4 counterexample: the claim's parenthetical asserts that the key name
`sessionId` matches no sensitive-key pattern, but `SENSITIVE_KEY_PATTERNS`
contains the unanchored `/session/i`, which `sessionId` contains. -/
theorem sessionId_key_counterexample : isSensitiveKey "sessionId" = true := by decide

/-- C4 (amended): `filterSensitiveStorage` on the map binding `sessionId` to a
UUID-shaped value under `hide-sensitive` redacts the value, and the value does
match the UUID format signature; however — contrary to the claim's
parenthetical — the key name `sessionId` itself also matches the `/session/i`
sensitive-key pattern, so either test alone already forces the redaction. -/
theorem filterStorage_sessionId_redacts :
    filterSensitiveStorage [("sessionId", "deadbeef-dead-beef-dead-beefdeadbeef")]
        "hide-sensitive" =
      [("sessionId", "[SENSITIVE DATA REDACTED]")] ∧
    matchUuid "deadbeef-dead-beef-dead-beefdeadbeef" = true ∧
    isSensitiveValue (Json.str "deadbeef-dead-beef-dead-beefdeadbeef") = true ∧
    isSensitiveKey "sessionId" = true := by
  have hval : isSensitiveValue (Json.str "deadbeef-dead-beef-dead-beefdeadbeef") = true := by
    simp only [isSensitiveValue]
    rw [if_neg (by decide), if_pos (by decide)]
  refine ⟨?_, by decide, hval, by decide⟩
  have hkey : isSensitiveKey "sessionId" = true := by decide
  simp [filterSensitiveStorage, hkey]

/-- C5: `isSensitiveValue` returns false on every non-string value, and on
every string shorter than eight characters regardless of content. -/
theorem isSensitiveValue_short_or_nonstring :
    (∀ v : Json, v.isStr = false → isSensitiveValue v = false) ∧
    (∀ s : String, s.length < 8 → isSensitiveValue (Json.str s) = false) := by
  constructor
  · intro v hv
    cases v with
    | str s => simp [Json.isStr] at hv
    | null => rfl
    | bool b => rfl
    | num n => rfl
    | arr items => rfl
    | obj fields => rfl
  · intro s h
    simp [isSensitiveValue, h]

/-- Witness for C5 at a number and a two-character string. -/
theorem isSensitiveValue_short_or_nonstring_witness :
    isSensitiveValue (Json.num 42) = false ∧ isSensitiveValue (Json.str "pw") = false :=
  ⟨isSensitiveValue_short_or_nonstring.1 (Json.num 42) rfl,
   isSensitiveValue_short_or_nonstring.2 "pw" (by decide)⟩

/-- C6: when parsing fails (`parseResult = none`), `processJsonString` returns
exactly what `truncateStringsInData` produces on the whole text treated as one
opaque string (an unchanged or cut-with-marker string); and when any
unexpected failure occurs after a successful parse (`laterFailure = true`), it
returns the hard substring cut of `text` to `maxLength` characters with the
fixed truncation marker appended. -/
theorem processJsonString_fallbacks :
    (∀ (laterFailure : Bool) (text : String) (maxLength maxLogSize : Nat),
        Json.str (processJsonString none laterFailure text maxLength maxLogSize) =
          truncateStringsInData (Json.str text) maxLength 0) ∧
    (∀ (parsed : Json) (text : String) (maxLength maxLogSize : Nat),
        processJsonString (some parsed) true text maxLength maxLogSize =
          text.take maxLength ++ "... (truncated)") := by
  constructor
  · intro laterFailure text maxLength maxLogSize
    rfl
  · intro parsed text maxLength maxLogSize
    rfl

/-- C7: a server reply whose body carries a signature other than the expected
constant makes `validateServerIdentity` fail with the `invalid_signature`
reason, and feeding that validation outcome to `setupWebSocket` leaves the
socket unopened and schedules the retry timer instead. -/
theorem invalid_signature_blocks_connection (st : ConnState) (name version sig : String)
    (h : sig ≠ "mcp-browser-connector-24x7") :
    validateServerIdentity (ServerReply.json name version sig) =
      (false, some "invalid_signature") ∧
    (setupWebSocket st (validateServerIdentity (ServerReply.json name version sig)).1).ws
      = false ∧
    (setupWebSocket st
        (validateServerIdentity (ServerReply.json name version sig)).1).wsReconnectTimeout
      = true := by
  have hb : (sig == "mcp-browser-connector-24x7") = false := by
    simpa using h
  refine ⟨?_, ?_, ?_⟩ <;> simp [validateServerIdentity, hb, setupWebSocket]

/-- Witness for C7 at a concrete wrong signature and a fully live prior state. -/
theorem invalid_signature_blocks_connection_witness :
    validateServerIdentity (ServerReply.json "srv" "1.0" "wrong") =
      (false, some "invalid_signature") ∧
    (setupWebSocket (ConnState.mk true true true false false)
        (validateServerIdentity (ServerReply.json "srv" "1.0" "wrong")).1).ws = false := by
  obtain ⟨h1, h2, h3⟩ :=
    invalid_signature_blocks_connection (ConnState.mk true true true false false)
      "srv" "1.0" "wrong" (by decide)
  exact ⟨h1, h2⟩

/-- C8 counterexample: a close event whose code (1006) is neither 1000 nor
1001 schedules no reconnect when the intentional-closure flag is set — the
handler returns before the close-code test — refuting the claim's unqualified
"any code other than 1000 or 1001 always schedules exactly one reconnect". -/
theorem wsOnClose_intentional_counterexample :
    (wsOnClose (ConnState.mk true false true false true) 1006).2 = 0 := rfl

/-- C8 (amended): on a close event with code 1000 and no pending revalidation
flag the handler schedules no reconnect; and on a non-intentional close event
(`intentionalClosure` unset) with any code other than 1000 or 1001 it performs
exactly one reconnect-scheduling `setTimeout` with the fixed
`WS_RECONNECT_DELAY`. -/
theorem wsOnClose_reconnect_policy :
    (∀ st : ConnState, st.reconnectAfterValidation = false →
        (wsOnClose st 1000).2 = 0) ∧
    (∀ (st : ConnState) (code : Nat), st.intentionalClosure = false →
        code ≠ 1000 → code ≠ 1001 → (wsOnClose st code).2 = 1) := by
  constructor
  · intro st hrv
    by_cases hic : st.intentionalClosure
    · simp [wsOnClose, hic]
    · simp [wsOnClose, hic, hrv]
  · intro st code hic h0 h1
    have hb0 : (code == 1000) = false := by simpa using h0
    have hb1 : (code == 1001) = false := by simpa using h1
    simp [wsOnClose, hic, hb0, hb1]

/-- Witness for C8 (amended): from a live non-intentional state, code 1000
with no pending revalidation schedules nothing and code 1006 schedules once. -/
theorem wsOnClose_reconnect_policy_witness :
    (wsOnClose (ConnState.mk true false true false false) 1000).2 = 0 ∧
    (wsOnClose (ConnState.mk true false true false false) 1006).2 = 1 :=
  ⟨wsOnClose_reconnect_policy.1 (ConnState.mk true false true false false) rfl,
   wsOnClose_reconnect_policy.2 (ConnState.mk true false true false false) 1006 rfl
     (by decide) (by decide)⟩

/-- C9: whatever the outcome of the cookie read, the `get-cookies` branch
sends exactly one frame; it echoes the command's `requestId`, carries type
`cookies-data` exactly on a successful read, and `cookies-error` on an
exception or missing result — never both frames and never none. -/
theorem getCookies_exactly_one_response (rid mode : String) (outcome : EvalOutcome) :
    ∃ f, getCookiesOnEvalResult rid mode outcome = [f] ∧
      f.requestId = rid ∧
      (f.msgType = "cookies-data" ∨ f.msgType = "cookies-error") ∧
      ((∃ cs, outcome = EvalOutcome.ok (some cs)) → f.msgType = "cookies-data") ∧
      ((∀ cs, outcome ≠ EvalOutcome.ok (some cs)) → f.msgType = "cookies-error") := by
  cases outcome with
  | exn e =>
      refine ⟨_, rfl, rfl, Or.inr rfl, ?_, fun _ => rfl⟩
      rintro ⟨cs, h⟩
      cases h
  | ok r =>
      cases r with
      | none =>
          refine ⟨_, rfl, rfl, Or.inr rfl, ?_, fun _ => rfl⟩
          rintro ⟨cs, h⟩
          simp at h
      | some cs =>
          refine ⟨_, rfl, rfl, Or.inl rfl, fun _ => rfl, ?_⟩
          intro hall
          exact absurd rfl (hall cs)

/-- Witness for C9: an eval exception yields exactly one error frame echoing
the request id. -/
theorem getCookies_exactly_one_response_witness :
    ∃ f, getCookiesOnEvalResult "r1" "hide-all" (EvalOutcome.exn "boom") = [f] ∧
      f.requestId = "r1" ∧ f.msgType = "cookies-error" := by
  obtain ⟨f, h1, h2, h3, h4, h5⟩ :=
    getCookies_exactly_one_response "r1" "hide-all" (EvalOutcome.exn "boom")
  exact ⟨f, h1, h2, h5 (fun cs h => EvalOutcome.noConfusion h)⟩

/-- C10: every string of characters from `[A-Za-z0-9_-]` whose length lies in
16..128 matches the generic api-key format signature and is therefore
classified sensitive by `isSensitiveValue`, with no regard to its entropy or
repetitiveness — the format stage short-circuits before the entropy stage. -/
theorem generic_api_key_always_sensitive (s : String)
    (hclass : s.data.all inKeyClass = true) (h16 : 16 ≤ s.length) (h128 : s.length ≤ 128) :
    isSensitiveValue (Json.str s) = true := by
  have hg : matchGenericApiKey s = true := by
    simp only [matchGenericApiKey, Bool.and_eq_true, decide_eq_true_eq]
    exact ⟨⟨h16, h128⟩, hclass⟩
  have hp : matchesSensitiveValuePattern s = true := by
    simp [matchesSensitiveValuePattern, hg]
  have h8 : ¬ s.length < 8 := by omega
  simp [isSensitiveValue, h8, hp]

/-- Witness for C10: twenty repeated `a` characters are classified sensitive. -/
theorem generic_api_key_always_sensitive_witness :
    isSensitiveValue (Json.str "aaaaaaaaaaaaaaaaaaaa") = true :=
  generic_api_key_always_sensitive "aaaaaaaaaaaaaaaaaaaa" (by decide) (by decide) (by decide)
